import Mathlib

/-!
# Verification of the mcpjungle authentication / authorization core

Shallow embedding, in Lean 4, of the OAuth and access-control core of the
mcpjungle repository, together with proofs settling the frozen claims about
its specification.

Conventions used throughout:
* Go `time.Time` instants are modelled as `Int` nanosecond timestamps
  (`time.Duration` is an `int64` nanosecond count in Go); `t.After(u)` is
  `t > u`, `t.Add(d)` is `t + d`.
* JSON-array columns are modelled post-decoding, as Lean lists
  (Go decodes `nil`/`null` to the empty slice in every accessor used here).
* Fallible Go functions (`(T, error)`) become `Except String T`; database
  handles become explicit stores (lists of rows) passed in and out.
* Randomized token generation and outbound HTTP calls are modelled as
  parameters supplied to the embedded functions.
-/

namespace Mcpjungle

/-! ## Time model -/

/-- Five minutes as a Go `time.Duration` (nanoseconds). -/
def fiveMinutes : Int := 5 * 60 * 1000000000

/-- One second as a Go `time.Duration` (nanoseconds). -/
def nanosPerSecond : Int := 1000000000

/-! ## internal/model/oauth_token.go -/

/-- `model.OAuthAccessToken`: persisted OAuth 2.0 access token row
(gorm bookkeeping columns omitted; `userID`/`refreshTokenID` are the
nullable foreign keys). -/
structure OAuthAccessToken where
  accessToken : String
  clientID : String
  userID : Option Nat
  scope : String
  expiresAt : Int
  refreshTokenID : Option Nat
  audience : String
  revoked : Bool
  deriving Repr, DecidableEq

namespace OAuthAccessToken

/-- `OAuthAccessToken.IsExpired`: `time.Now().After(t.ExpiresAt)`. -/
def isExpired (t : OAuthAccessToken) (now : Int) : Bool :=
  decide (now > t.expiresAt)

/-- `OAuthAccessToken.IsValid`: `!t.Revoked && !t.IsExpired()`. -/
def isValid (t : OAuthAccessToken) (now : Int) : Bool :=
  !t.revoked && !t.isExpired now

end OAuthAccessToken

/-- `model.OAuthRefreshToken`: persisted OAuth 2.0 refresh token row. -/
structure OAuthRefreshToken where
  refreshToken : String
  clientID : String
  userID : Nat
  scope : String
  expiresAt : Int
  revoked : Bool
  rotationCount : Nat
  deriving Repr, DecidableEq

/-! ## internal/model/oauth_upstream_session.go -/

/-- `model.OAuthUpstreamSession`: OAuth session with one upstream MCP server.
`expiresAt` is the nullable `*time.Time` column. -/
structure OAuthUpstreamSession where
  mcpServerName : String
  clientID : String
  clientSecret : String
  accessToken : String
  refreshToken : String
  tokenType : String
  expiresAt : Option Int
  scope : String
  authorizationEndpoint : String
  tokenEndpoint : String
  resourceURI : String
  codeVerifier : String
  redirectURI : String
  deriving Repr, DecidableEq

namespace OAuthUpstreamSession

/-- `OAuthUpstreamSession.IsAccessTokenExpired`: returns `false` when
`ExpiresAt == nil`, otherwise `time.Now().Add(5 * time.Minute).After(*s.ExpiresAt)`. -/
def isAccessTokenExpired (s : OAuthUpstreamSession) (now : Int) : Bool :=
  match s.expiresAt with
  | none => false
  | some exp => decide (now + fiveMinutes > exp)

/-- `OAuthUpstreamSession.NeedsRefresh`:
`s.RefreshToken != "" && s.IsAccessTokenExpired()`. -/
def needsRefresh (s : OAuthUpstreamSession) (now : Int) : Bool :=
  s.refreshToken != "" && s.isAccessTokenExpired now

end OAuthUpstreamSession

/-! ## OAuth consumer service: GetOrRefreshUpstreamToken
(internal/service/oauth, client side) -/

/-- `oauth.TokenResponse`: decoded JSON body of an upstream token response. -/
structure TokenResponse where
  accessToken : String
  tokenType : String
  expiresIn : Int
  refreshToken : String
  scope : String
  deriving Repr, DecidableEq

/-- Arguments passed by `GetOrRefreshUpstreamToken` to `RefreshAccessToken`:
token endpoint, client id, client secret, refresh token, resource URI. -/
structure RefreshArgs where
  tokenEndpoint : String
  clientID : String
  clientSecret : String
  refreshToken : String
  resource : String
  deriving Repr, DecidableEq

/-- `OAuthClientService.GetOrRefreshUpstreamToken`.
The database lookup is `sessionLookup` (the row keyed by `serverName`, if
any); the outbound `RefreshAccessToken` HTTP call is the `refresh`
parameter.  The result carries the returned access token together with the
session row written back by `db.Save` (`none` when nothing was persisted). -/
def getOrRefreshUpstreamToken
    (sessionLookup : Option OAuthUpstreamSession) (now : Int)
    (refresh : RefreshArgs → Except String TokenResponse)
    (serverName : String) :
    Except String (String × Option OAuthUpstreamSession) :=
  match sessionLookup with
  | none => .error ("no OAuth session found for server " ++ serverName)
  | some session =>
    if !(session.needsRefresh now) then
      .ok (session.accessToken, none)
    else if session.refreshToken == "" then
      .error "access token expired and no refresh token available"
    else
      match refresh ⟨session.tokenEndpoint, session.clientID,
          session.clientSecret, session.refreshToken, session.resourceURI⟩ with
      | .error e => .error ("failed to refresh access token: " ++ e)
      | .ok tokenResp =>
        let expiresAt := now + tokenResp.expiresIn * nanosPerSecond
        let session' : OAuthUpstreamSession :=
          { session with
            accessToken := tokenResp.accessToken
            expiresAt := some expiresAt
            tokenType := tokenResp.tokenType
            refreshToken :=
              if tokenResp.refreshToken != "" then tokenResp.refreshToken
              else session.refreshToken }
        .ok (session'.accessToken, some session')

/-! ## internal/util/oauth.go — PKCE (SHA-256 and raw-URL base64)

`GeneratePKCEChallenge` is `base64.RawURLEncoding.EncodeToString(sha256.Sum256(verifier))`.
SHA-256 (FIPS 180-4) and Go's `RawURLEncoding` are embedded executably below;
32-bit words are `Nat`s reduced modulo `2^32`. -/

/-- `2^32`, the word modulus of SHA-256. -/
def w32 : Nat := 4294967296

/-- Right rotation of a 32-bit word (represented as a `Nat < 2^32`). -/
def rotr (n x : Nat) : Nat := ((x >>> n) ||| (x <<< (32 - n))) % w32

/-- The 64 SHA-256 round constants (FIPS 180-4, written in decimal). -/
def sha256K : List Nat :=
  [1116352408, 1899447441, 3049323471, 3921009573,
   961987163, 1508970993, 2453635748, 2870763221,
   3624381080, 310598401, 607225278, 1426881987,
   1925078388, 2162078206, 2614888103, 3248222580,
   3835390401, 4022224774, 264347078, 604807628,
   770255983, 1249150122, 1555081692, 1996064986,
   2554220882, 2821834349, 2952996808, 3210313671,
   3336571891, 3584528711, 113926993, 338241895,
   666307205, 773529912, 1294757372, 1396182291,
   1695183700, 1986661051, 2177026350, 2456956037,
   2730485921, 2820302411, 3259730800, 3345764771,
   3516065817, 3600352804, 4094571909, 275423344,
   430227734, 506948616, 659060556, 883997877,
   958139571, 1322822218, 1537002063, 1747873779,
   1955562222, 2024104815, 2227730452, 2361852424,
   2428436474, 2756734187, 3204031479, 3329325298]

/-- SHA-256 working state (eight 32-bit words). -/
structure Sha256State where
  a : Nat
  b : Nat
  c : Nat
  d : Nat
  e : Nat
  f : Nat
  g : Nat
  h : Nat
  deriving Repr, DecidableEq

/-- The SHA-256 initial hash value (FIPS 180-4, written in decimal). -/
def sha256Init : Sha256State :=
  ⟨1779033703, 3144134277, 1013904242, 2773480762,
   1359893119, 2600822924, 528734635, 1541459225⟩

/-- Big-endian decomposition of a `Nat` into `n` bytes. -/
def beBytes (n : Nat) (x : Nat) : List Nat :=
  match n with
  | 0 => []
  | m + 1 => ((x >>> (8 * m)) % 256) :: beBytes m x

/-- SHA-256 message padding: append `0x80`, zeros, and the 64-bit
big-endian bit length, up to a multiple of 64 bytes. -/
def sha256Pad (msg : List Nat) : List Nat :=
  let len := msg.length
  let zeros := (64 - ((len + 9) % 64)) % 64
  msg ++ [0x80] ++ List.replicate zeros 0 ++ beBytes 8 (8 * len)

/-- Big-endian 32-bit words from a byte list (groups of four). -/
def bytesToWords : List Nat → List Nat
  | a :: b :: c :: d :: rest =>
    (((a * 256 + b) * 256 + c) * 256 + d) :: bytesToWords rest
  | _ => []

/-- Fuelled worker for `toBlocks`. -/
def toBlocksAux : Nat → List Nat → List (List Nat)
  | 0, _ => []
  | _, [] => []
  | fuel + 1, b :: rest =>
    (b :: rest).take 64 :: toBlocksAux fuel ((b :: rest).drop 64)

/-- Split a byte list into 64-byte blocks (the fuel, one unit per input
byte, dominates the number of blocks since every step consumes a byte). -/
def toBlocks (bs : List Nat) : List (List Nat) :=
  toBlocksAux bs.length bs

/-- SHA-256 message schedule: extend 16 words to 64. -/
def sha256Schedule (ws : Array Nat) : Array Nat :=
  (List.range 48).foldl
    (fun w i =>
      let j := i + 16
      let x15 := w.getD (j - 15) 0
      let x2 := w.getD (j - 2) 0
      let s0 := (rotr 7 x15 ^^^ rotr 18 x15 ^^^ (x15 >>> 3)) % w32
      let s1 := (rotr 17 x2 ^^^ rotr 19 x2 ^^^ (x2 >>> 10)) % w32
      w.push ((w.getD (j - 16) 0 + s0 + w.getD (j - 7) 0 + s1) % w32))
    ws

/-- One SHA-256 round. -/
def sha256Round (st : Sha256State) (kw : Nat × Nat) : Sha256State :=
  let s1 := rotr 6 st.e ^^^ rotr 11 st.e ^^^ rotr 25 st.e
  let ch := (st.e &&& st.f) ^^^ ((w32 - 1 - st.e) &&& st.g)
  let temp1 := (st.h + s1 + ch + kw.1 + kw.2) % w32
  let s0 := rotr 2 st.a ^^^ rotr 13 st.a ^^^ rotr 22 st.a
  let maj := (st.a &&& st.b) ^^^ (st.a &&& st.c) ^^^ (st.b &&& st.c)
  let temp2 := (s0 + maj) % w32
  ⟨(temp1 + temp2) % w32, st.a, st.b, st.c,
   (st.d + temp1) % w32, st.e, st.f, st.g⟩

/-- SHA-256 compression of one 64-byte block into the running hash. -/
def sha256Compress (h : Sha256State) (block : List Nat) : Sha256State :=
  let ws := sha256Schedule (Array.mk (bytesToWords block))
  let st := (sha256K.zip ws.toList).foldl sha256Round h
  ⟨(h.a + st.a) % w32, (h.b + st.b) % w32, (h.c + st.c) % w32,
   (h.d + st.d) % w32, (h.e + st.e) % w32, (h.f + st.f) % w32,
   (h.g + st.g) % w32, (h.h + st.h) % w32⟩

/-- SHA-256 of a byte string, as its 32-byte digest. -/
def sha256 (msg : List Nat) : List Nat :=
  let final := (toBlocks (sha256Pad msg)).foldl sha256Compress sha256Init
  beBytes 4 final.a ++ beBytes 4 final.b ++ beBytes 4 final.c ++
    beBytes 4 final.d ++ beBytes 4 final.e ++ beBytes 4 final.f ++
    beBytes 4 final.g ++ beBytes 4 final.h

/-- The 64-character alphabet of Go's `base64.RawURLEncoding`. -/
def base64urlChars : List Char :=
  "ABCDEFGHIJKLMNOPQRSTUVWXYZabcdefghijklmnopqrstuvwxyz0123456789-_".data

/-- Character of the base64url alphabet at a 6-bit index. -/
def b64c (i : Nat) : Char := base64urlChars.getD i 'A'

/-- Go `base64.RawURLEncoding.EncodeToString`: unpadded base64url. -/
def base64urlEncode : List Nat → List Char
  | [] => []
  | [a] => [b64c (a >>> 2), b64c ((a % 4) <<< 4)]
  | [a, b] =>
    [b64c (a >>> 2), b64c (((a % 4) <<< 4) ||| (b >>> 4)),
     b64c ((b % 16) <<< 2)]
  | a :: b :: c :: rest =>
    b64c (a >>> 2) :: b64c (((a % 4) <<< 4) ||| (b >>> 4)) ::
      b64c (((b % 16) <<< 2) ||| (c >>> 6)) :: b64c (c % 64) ::
      base64urlEncode rest

/-- UTF-8 encoding of one Unicode scalar value. -/
def utf8EncodeCharNat (c : Char) : List Nat :=
  let n := c.toNat
  if n < 0x80 then [n]
  else if n < 0x800 then
    [0xC0 ||| (n >>> 6), 0x80 ||| (n &&& 0x3F)]
  else if n < 0x10000 then
    [0xE0 ||| (n >>> 12), 0x80 ||| ((n >>> 6) &&& 0x3F), 0x80 ||| (n &&& 0x3F)]
  else
    [0xF0 ||| (n >>> 18), 0x80 ||| ((n >>> 12) &&& 0x3F),
     0x80 ||| ((n >>> 6) &&& 0x3F), 0x80 ||| (n &&& 0x3F)]

/-- UTF-8 bytes of a string (Go `[]byte(s)`). -/
def utf8Bytes (s : String) : List Nat :=
  s.data.flatMap utf8EncodeCharNat

/-- `util.GeneratePKCEChallenge`:
`base64.RawURLEncoding.EncodeToString(sha256.Sum256([]byte(verifier)))`. -/
def GeneratePKCEChallenge (verifier : String) : String :=
  ⟨base64urlEncode (sha256 (utf8Bytes verifier))⟩

/-- `util.VerifyPKCE`: only the `S256` method verifies, by comparing the
recomputed challenge against the presented one. -/
def VerifyPKCE (verifier challenge method : String) : Bool :=
  if method != "S256" then false
  else GeneratePKCEChallenge verifier == challenge

/-! ## internal/model — tool groups (`ToolGroup.ResolveEffectiveTools` /
`ResolveEffectivePrompts`) and MCP clients (`McpClient.CheckHasToolAccess`).

JSON-array columns appear post-decoding as lists (`GetTools`, `GetServers`,
`GetExcludedTools`, … decode `nil` to `[]`).  The Go functions accumulate
into a `map[string]bool`, i.e. a finite set of names, modelled as a
`Finset String`.  The `ToolResolver` / `PromptResolver` collaborators
(`ListToolsByServer` / `ListPromptsByServer`) are function parameters. -/

/-- `model.Tool`, projected to the only field the resolver loops read. -/
structure Tool where
  name : String
  deriving Repr, DecidableEq

/-- `model.Prompt`, projected to the only field the resolver loops read. -/
structure Prompt where
  name : String
  deriving Repr, DecidableEq

/-- `model.ToolGroup` with its JSON-array columns decoded. -/
structure ToolGroup where
  name : String
  includedTools : List String
  includedServers : List String
  excludedTools : List String
  includedPrompts : List String
  excludedPrompts : List String
  deriving Repr, DecidableEq

/-- Insert every name of a list into the accumulating set
(`effectiveTools[tool] = true` inside a loop). -/
def insertAll (ts : List String) (acc : Finset String) : Finset String :=
  ts.foldl (fun a t => insert t a) acc

/-- Delete every name of a list from the accumulating set
(`delete(effectiveTools, tool)` inside a loop). -/
def eraseAll (ts : List String) (acc : Finset String) : Finset String :=
  ts.foldl (fun a t => a.erase t) acc

/-- The `included_servers` loop of `ResolveEffectiveTools`: look each server
up with `ListToolsByServer` (failure aborts the whole resolution) and add
every returned tool name. -/
def addServerTools (resolver : String → Except String (List Tool)) :
    List String → Finset String → Except String (Finset String)
  | [], acc => .ok acc
  | s :: rest, acc =>
    match resolver s with
    | .error e => .error ("failed to get tools for server " ++ s ++ ": " ++ e)
    | .ok tools => addServerTools resolver rest (insertAll (tools.map Tool.name) acc)

/-- The `included_servers` loop of `ResolveEffectivePrompts`. -/
def addServerPrompts (resolver : String → Except String (List Prompt)) :
    List String → Finset String → Except String (Finset String)
  | [], acc => .ok acc
  | s :: rest, acc =>
    match resolver s with
    | .error e => .error ("failed to get prompts for server " ++ s ++ ": " ++ e)
    | .ok prompts => addServerPrompts resolver rest (insertAll (prompts.map Prompt.name) acc)

namespace ToolGroup

/-- `ToolGroup.ResolveEffectiveTools`: include `included_tools`, then every
tool of every `included_servers` entry, then remove `excluded_tools`. -/
def resolveEffectiveTools (g : ToolGroup)
    (resolver : String → Except String (List Tool)) :
    Except String (Finset String) :=
  match addServerTools resolver g.includedServers (insertAll g.includedTools ∅) with
  | .error e => .error e
  | .ok s => .ok (eraseAll g.excludedTools s)

/-- `ToolGroup.ResolveEffectivePrompts`: same resolution over
`included_prompts`, `included_servers` and `excluded_prompts`. -/
def resolveEffectivePrompts (g : ToolGroup)
    (resolver : String → Except String (List Prompt)) :
    Except String (Finset String) :=
  match addServerPrompts resolver g.includedServers (insertAll g.includedPrompts ∅) with
  | .error e => .error e
  | .ok s => .ok (eraseAll g.excludedPrompts s)

end ToolGroup

/-- `model.McpClient` with its JSON-array columns decoded
(`AllowList = nil` and `AllowedToolGroups = nil` decode to `[]`). -/
structure McpClient where
  name : String
  accessToken : String
  allowList : List String
  allowedToolGroups : List String
  deriving Repr, DecidableEq

/-- `splitServerToolName`: split a canonical `server__tool` name at the
first occurrence of `"__"`. -/
def splitServerToolChars : List Char → Option (List Char × List Char)
  | '_' :: '_' :: rest => some ([], rest)
  | c :: rest => (splitServerToolChars rest).map (fun p => (c :: p.1, p.2))
  | [] => none

/-- `splitServerToolName` on strings; `none` when no `"__"` occurs. -/
def splitServerToolName (name : String) : Option (String × String) :=
  (splitServerToolChars name.data).map
    (fun p => (String.mk p.1, String.mk p.2))

namespace McpClient

/-- `McpClient.CheckHasServerAccess`: membership of the server name in the
decoded allow list. -/
def checkHasServerAccess (c : McpClient) (serverName : String) : Bool :=
  c.allowList.contains serverName

/-- `McpClient.toolExistsInAllowedGroups`: scan the allowed groups in
order; a group the checker cannot find is skipped silently, a resolution
failure aborts, the first group whose effective tool set contains the tool
grants access. -/
def toolExistsInAllowedGroups (toolName : String)
    (checker : String → Option ToolGroup)
    (resolver : String → Except String (List Tool)) :
    List String → Except String Bool
  | [] => .ok false
  | gname :: rest =>
    match checker gname with
    | none => toolExistsInAllowedGroups toolName checker resolver rest
    | some group =>
      match group.resolveEffectiveTools resolver with
      | .error e =>
        .error ("failed to resolve tools for group " ++ gname ++ ": " ++ e)
      | .ok tools =>
        if toolName ∈ tools then .ok true
        else toolExistsInAllowedGroups toolName checker resolver rest

/-- `McpClient.CheckHasToolAccess`: tool-group ACL when
`allowed_tool_groups` is non-empty, otherwise the server-level fallback on
the first-`"__"` parse of the tool name. -/
def checkHasToolAccess (c : McpClient) (toolName : String)
    (checker : String → Option ToolGroup)
    (resolver : String → Except String (List Tool)) : Except String Bool :=
  let allowedGroups := c.allowedToolGroups
  if allowedGroups.length > 0 then
    toolExistsInAllowedGroups toolName checker resolver allowedGroups
  else
    match splitServerToolName toolName with
    | none => .error ("invalid tool name format: " ++ toolName)
    | some (serverName, _) => .ok (c.checkHasServerAccess serverName)

end McpClient

/-! ## internal/service/audit/audit.go — sensitive-field redaction

Audit payloads are Go `map[string]interface{}` values destined for
`json.Marshal`; they are modelled as JSON trees, an object being an
association list of string keys. -/

/-- A JSON value as produced by decoding / before `json.Marshal`. -/
inductive JsonValue where
  | str : String → JsonValue
  | num : Int → JsonValue
  | jbool : Bool → JsonValue
  | null : JsonValue
  | arr : List JsonValue → JsonValue
  | obj : List (String × JsonValue) → JsonValue

/-- The sensitive key set of `AuditService.filterSensitiveData`. -/
def sensitiveFields : List String :=
  ["access_token", "bearer_token", "password", "secret", "token"]

/-- `AuditService.filterSensitiveData`: replace the value of every
sensitive key with `"[REDACTED]"`, recurse into values that are
string-keyed maps, and pass everything else (arrays included) through
unchanged. -/
def filterSensitiveData : List (String × JsonValue) → List (String × JsonValue)
  | [] => []
  | (k, v) :: rest =>
    if sensitiveFields.contains k then
      (k, JsonValue.str "[REDACTED]") :: filterSensitiveData rest
    else
      match v with
      | JsonValue.obj m =>
        (k, JsonValue.obj (filterSensitiveData m)) :: filterSensitiveData rest
      | _ => (k, v) :: filterSensitiveData rest
termination_by l => sizeOf l
decreasing_by all_goals simp_wf <;> omega

/-- `AuditService.LogCreate` wraps its payload as `{"created": data}` before
filtering; this is the filtered changes document it persists. -/
def logCreateChanges (data : JsonValue) : List (String × JsonValue) :=
  filterSensitiveData [("created", data)]

/-- `AuditService.LogUpdate` filters its changes map directly. -/
def logUpdateChanges (changes : List (String × JsonValue)) :
    List (String × JsonValue) :=
  filterSensitiveData changes

/-- `AuditService.LogEnable` filters its details map directly. -/
def logEnableChanges (details : List (String × JsonValue)) :
    List (String × JsonValue) :=
  filterSensitiveData details

/-- `AuditService.LogDisable` filters its details map directly. -/
def logDisableChanges (details : List (String × JsonValue)) :
    List (String × JsonValue) :=
  filterSensitiveData details

/-- Whether a JSON value is the literal string `"[REDACTED]"`. -/
def isRedactedLit : JsonValue → Bool
  | JsonValue.str s => s == "[REDACTED]"
  | _ => false

/-- A changes document is *deep-clean* when, everywhere in the tree (array
elements included), every sensitive key maps to the literal
`"[REDACTED]"`.  This is the reading of the claim's invariant. -/
def deepClean : JsonValue → Bool
  | JsonValue.obj [] => true
  | JsonValue.obj ((k, v) :: rest) =>
    (if sensitiveFields.contains k then isRedactedLit v else deepClean v) &&
      deepClean (JsonValue.obj rest)
  | JsonValue.arr [] => true
  | JsonValue.arr (v :: rest) => deepClean v && deepClean (JsonValue.arr rest)
  | _ => true
termination_by v => sizeOf v
decreasing_by all_goals simp_wf <;> omega

/-- A changes document is *map-clean* when every sensitive key reachable
through nested objects only (never crossing an array) maps to the literal
`"[REDACTED]"`.  This is what `filterSensitiveData` actually establishes. -/
def mapClean : JsonValue → Bool
  | JsonValue.obj [] => true
  | JsonValue.obj ((k, v) :: rest) =>
    (if sensitiveFields.contains k then isRedactedLit v else mapClean v) &&
      mapClean (JsonValue.obj rest)
  | _ => true
termination_by v => sizeOf v
decreasing_by all_goals simp_wf <;> omega

/-! ## OAuth issuer service (internal/service/oauth) and model rows -/

/-- `model.OAuthClient` with its JSON-array columns decoded. -/
structure OAuthClient where
  clientID : String
  clientSecret : String
  clientName : String
  redirectURIs : List String
  grantTypes : List String
  scopes : List String
  isConfidential : Bool
  tokenEndpointAuthMethod : String
  deriving Repr, DecidableEq

/-- `model.OAuthAuthorizationCode`: persisted single-use authorization code. -/
structure OAuthAuthorizationCode where
  code : String
  clientID : String
  userID : Nat
  redirectURI : String
  scope : String
  expiresAt : Int
  codeChallenge : String
  codeChallengeMethod : String
  used : Bool
  deriving Repr, DecidableEq

namespace OAuthAuthorizationCode

/-- `OAuthAuthorizationCode.IsExpired`: `time.Now().After(c.ExpiresAt)`. -/
def isExpired (c : OAuthAuthorizationCode) (now : Int) : Bool :=
  decide (now > c.expiresAt)

/-- `OAuthAuthorizationCode.IsValid`: `!c.Used && !c.IsExpired()`. -/
def isValid (c : OAuthAuthorizationCode) (now : Int) : Bool :=
  !c.used && !c.isExpired now

end OAuthAuthorizationCode

/-- `OAuthService.GetAuthorizationCode`: the row whose unique `code` column
matches, if any (record-not-found is returned as `nil`, not an error). -/
def getAuthorizationCode (store : List OAuthAuthorizationCode)
    (code : String) : Option OAuthAuthorizationCode :=
  store.find? (fun r => r.code == code)

/-- `OAuthService.MarkAuthorizationCodeUsed`:
`UPDATE oauth_authorization_codes SET used = true WHERE code = ?`.
The gorm error is a database failure only: matching zero rows is a success
and the number of affected rows is never inspected by any caller. -/
def markAuthorizationCodeUsed (store : List OAuthAuthorizationCode)
    (code : String) : List OAuthAuthorizationCode :=
  store.map (fun r => if r.code == code then { r with used := true } else r)

/-- Modelled from the spec: the atomic marking §5 prescribes
(`UPDATE ... WHERE code = ? AND used = false`, treating zero affected rows
as replay).  This definition exists only to compare the prescribed
behaviour with `markAuthorizationCodeUsed` above; it is not in the source. -/
def markAuthorizationCodeUsedConditional (store : List OAuthAuthorizationCode)
    (code : String) : Except String (List OAuthAuthorizationCode) :=
  if store.any (fun r => r.code == code && !r.used) then
    .ok (store.map (fun r =>
      if r.code == code && !r.used then { r with used := true } else r))
  else
    .error "authorization code replay detected"

/-- `OAuthService.ValidateRedirectURI`: exact-string membership in the
client's decoded redirect-URI list. -/
def validateRedirectURI (client : OAuthClient) (redirectURI : String) : Bool :=
  client.redirectURIs.contains redirectURI

/-- The scope loop of `OAuthService.ValidateScopes`: trim each token, skip
empties, reject the first scope outside the allowed set. -/
def validateScopesLoop (allowed : List String) :
    List String → List String → Except String (List String)
  | [], acc => .ok acc.reverse
  | s :: rest, acc =>
    let t := s.trim
    if t == "" then validateScopesLoop allowed rest acc
    else if allowed.contains t then validateScopesLoop allowed rest (t :: acc)
    else .error ("scope not allowed: " ++ t)

/-- `OAuthService.ValidateScopes`: an empty configured scope set accepts
any request verbatim; otherwise the request(space-split, trimmed) must be
contained in the configured set and is returned re-joined. -/
def validateScopes (client : OAuthClient) (requestedScopes : String) :
    Except String String :=
  if client.scopes.length == 0 then .ok requestedScopes
  else
    match validateScopesLoop client.scopes (requestedScopes.splitOn " ") [] with
    | .error e => .error e
    | .ok validated => .ok (String.intercalate " " validated)

/-- `OAuthService.ValidateClientCredentials`: bcrypt-verify the secret for
confidential clients, skip the check for public ones.  The bcrypt
comparison is the `bcryptMatches hash secret` parameter. -/
def validateClientCredentials (getClient : String → Option OAuthClient)
    (bcryptMatches : String → String → Bool)
    (clientID clientSecret : String) : Except String OAuthClient :=
  match getClient clientID with
  | none => .error "client not found"
  | some client =>
    if client.isConfidential && !(bcryptMatches client.clientSecret clientSecret) then
      .error "invalid client secret"
    else
      .ok client

/-- `OAuthService.RevokeAccessToken`:
`UPDATE oauth_access_tokens SET revoked = true WHERE access_token = ?`.
The gorm error is a database failure only; a token that matches no row is
still a success (zero affected rows). -/
def revokeAccessToken (store : List OAuthAccessToken) (token : String) :
    Except String (List OAuthAccessToken) :=
  .ok (store.map (fun t =>
    if t.accessToken == token then { t with revoked := true } else t))

/-- `OAuthService.RevokeRefreshToken`: same unconditional update on the
refresh-token table. -/
def revokeRefreshToken (store : List OAuthRefreshToken) (token : String) :
    Except String (List OAuthRefreshToken) :=
  .ok (store.map (fun t =>
    if t.refreshToken == token then { t with revoked := true } else t))

/-! ## HTTP boundary (internal/api, OAuth endpoints) -/

/-- One hour as a Go `time.Duration` (access-token TTL). -/
def oneHour : Int := 3600 * nanosPerSecond

/-- Thirty days as a Go `time.Duration` (refresh-token TTL). -/
def thirtyDays : Int := 30 * 24 * 3600 * nanosPerSecond

/-- An HTTP response as produced by the OAuth endpoints: a JSON error body
`{error, error_description}`, a token response body, a redirect whose
location query received the listed `Set` calls, or a bare status. -/
inductive HttpResponse where
  | json (status : Nat) (error : String) (errorDescription : String)
  | token (status : Nat) (accessToken tokenType : String) (expiresIn : Int)
      (refreshToken scope : String)
  | redirect (status : Nat) (location : String) (params : List (String × String))
  | empty (status : Nat)
  deriving Repr, DecidableEq

/-- The authenticated-user binding `c.Get("user_id")` can produce: no value,
a value of the wrong dynamic type, or a user id. -/
inductive UserCtx where
  | absent
  | invalidType
  | user (id : Nat)
  deriving Repr, DecidableEq

/-- Query parameters of `GET /oauth/authorize`. -/
structure AuthorizeRequest where
  clientID : String
  redirectURI : String
  responseType : String
  scope : String
  state : String
  codeChallenge : String
  codeChallengeMethod : String
  deriving Repr, DecidableEq

/-- Collaborators of `OAuthAuthorizeHandler`: the client store, the bound
user, the (randomized) outcome of `CreateAuthorizationCode`, and whether
`url.Parse` accepts a string. -/
structure AuthorizeEnv where
  getClient : String → Option OAuthClient
  user : UserCtx
  createCode : Except String String
  urlParses : String → Bool

/-- `redirectError`: 302 to the redirect URI with `error`, optional
`error_description` and optional `state` set on its query; an unparsable
redirect URI degrades to a JSON 400. -/
def redirectError (urlParses : String → Bool)
    (redirectURI state errorCode errorDescription : String) : HttpResponse :=
  if !(urlParses redirectURI) then
    .json 400 "invalid_request" "Invalid redirect_uri"
  else
    .redirect 302 redirectURI
      (("error", errorCode) ::
        ((if errorDescription != "" then [("error_description", errorDescription)] else []) ++
          (if state != "" then [("state", state)] else [])))

/-- `Server.OAuthAuthorizeHandler` (`GET /oauth/authorize`). -/
def authorizeHandler (env : AuthorizeEnv) (req : AuthorizeRequest) : HttpResponse :=
  if req.clientID == "" || req.redirectURI == "" || req.responseType == "" then
    .json 400 "invalid_request" "Missing required parameters"
  else if req.responseType != "code" then
    redirectError env.urlParses req.redirectURI req.state
      "unsupported_response_type" "Only authorization_code flow is supported"
  else if req.codeChallenge == "" || req.codeChallengeMethod == "" then
    redirectError env.urlParses req.redirectURI req.state "invalid_request"
      "PKCE is required: code_challenge and code_challenge_method must be provided"
  else if req.codeChallengeMethod != "S256" then
    redirectError env.urlParses req.redirectURI req.state "invalid_request"
      "Only S256 code_challenge_method is supported"
  else
    match env.getClient req.clientID with
    | none =>
      redirectError env.urlParses req.redirectURI req.state
        "invalid_client" "Client not found"
    | some client =>
      if !(validateRedirectURI client req.redirectURI) then
        .json 400 "invalid_request" "Invalid redirect_uri"
      else
        match validateScopes client req.scope with
        | .error e =>
          redirectError env.urlParses req.redirectURI req.state "invalid_scope" e
        | .ok _ =>
          match env.user with
          | .absent =>
            redirectError env.urlParses req.redirectURI req.state
              "access_denied" "User authentication required"
          | .invalidType =>
            redirectError env.urlParses req.redirectURI req.state
              "server_error" "Invalid user session"
          | .user _ =>
            match env.createCode with
            | .error _ =>
              redirectError env.urlParses req.redirectURI req.state
                "server_error" "Failed to generate authorization code"
            | .ok code =>
              .redirect 302 req.redirectURI
                (("code", code) ::
                  (if req.state != "" then [("state", req.state)] else []))

/-! ### `POST /oauth/revoke` -/

/-- Collaborators of `OAuthRevokeHandler`: the parsed Basic-auth
credentials (`extractClientCredentials` with empty body fallback), the
client store and the bcrypt comparison. -/
structure RevokeEnv where
  creds : Option (String × String)
  getClient : String → Option OAuthClient
  bcryptMatches : String → String → Bool

/-- The issuer's token tables as touched by revocation. -/
structure TokenStores where
  accessTokens : List OAuthAccessToken
  refreshTokens : List OAuthRefreshToken
  deriving Repr, DecidableEq

/-- `Server.OAuthRevokeHandler` (`POST /oauth/revoke`).  `tokenParam` is
the bound `token` form field (`binding:"required"`, so a missing field is
a 400 before anything else). -/
def revokeHandler (env : RevokeEnv) (tokenParam : Option String)
    (stores : TokenStores) : HttpResponse × TokenStores :=
  match tokenParam with
  | none => (.json 400 "invalid_request" "token parameter is required", stores)
  | some token =>
    let clientID := (env.creds.getD ("", "")).1
    let clientSecret := (env.creds.getD ("", "")).2
    if clientID == "" then
      (.json 400 "invalid_client" "Client authentication required", stores)
    else
      match validateClientCredentials env.getClient env.bcryptMatches
          clientID clientSecret with
      | .error _ =>
        (.json 401 "invalid_client" "Invalid client credentials", stores)
      | .ok _ =>
        match revokeAccessToken stores.accessTokens token with
        | .ok accessTokens' =>
          (.empty 200, { stores with accessTokens := accessTokens' })
        | .error _ =>
          match revokeRefreshToken stores.refreshTokens token with
          | .ok refreshTokens' =>
            (.empty 200, { stores with refreshTokens := refreshTokens' })
          | .error _ => (.empty 200, stores)

/-! ### `POST /oauth/token`, `grant_type=authorization_code` -/

/-- The bound form fields of `OAuthTokenRequest` used by the
authorization-code grant. -/
structure TokenRequest where
  grantType : String
  code : String
  redirectURI : String
  codeVerifier : String
  scope : String
  resource : String
  deriving Repr, DecidableEq

/-- The issuer's persistent state touched by the authorization-code grant. -/
structure IssuerStores where
  codes : List OAuthAuthorizationCode
  accessTokens : List OAuthAccessToken
  refreshTokens : List OAuthRefreshToken
  deriving Repr, DecidableEq

/-- Collaborators of `handleAuthorizationCodeGrant`: the clock, the server
base URL (`getServerURL`, the audience default) and the two freshly
generated random token values. -/
structure GrantEnv where
  now : Int
  serverURL : String
  newAccessToken : String
  newRefreshToken : String
  deriving Repr, DecidableEq

/-- The continuation of `Server.handleAuthorizationCodeGrant` after the
`GetAuthorizationCode` database read (`authCode` is the row that read
returned).  On success it marks the code used — the error of that update
is only logged, never acted on — then issues a 30-day refresh token and a
1-hour access token (the refresh row's autoincrement id is modelled as its
list index). -/
def handleGrantWithCode (env : GrantEnv) (client : OAuthClient)
    (req : TokenRequest) (authCode? : Option OAuthAuthorizationCode)
    (st : IssuerStores) : HttpResponse × IssuerStores :=
  if req.code == "" || req.redirectURI == "" || req.codeVerifier == "" then
    (.json 400 "invalid_request" "code, redirect_uri, and code_verifier are required", st)
  else
    match authCode? with
    | none => (.json 400 "invalid_grant" "Invalid authorization code", st)
    | some authCode =>
      if !(authCode.isValid env.now) then
        (.json 400 "invalid_grant" "Authorization code expired or already used", st)
      else if authCode.clientID != client.clientID then
        (.json 400 "invalid_grant" "Authorization code was issued to a different client", st)
      else if authCode.redirectURI != req.redirectURI then
        (.json 400 "invalid_grant" "redirect_uri does not match", st)
      else if !(VerifyPKCE req.codeVerifier authCode.codeChallenge
          authCode.codeChallengeMethod) then
        (.json 400 "invalid_grant" "Invalid code_verifier", st)
      else
        let codes' := markAuthorizationCodeUsed st.codes req.code
        let audience := if req.resource == "" then env.serverURL else req.resource
        let refreshRow : OAuthRefreshToken :=
          { refreshToken := env.newRefreshToken
            clientID := client.clientID
            userID := authCode.userID
            scope := authCode.scope
            expiresAt := env.now + thirtyDays
            revoked := false
            rotationCount := 0 }
        let accessRow : OAuthAccessToken :=
          { accessToken := env.newAccessToken
            clientID := client.clientID
            userID := some authCode.userID
            scope := authCode.scope
            expiresAt := env.now + oneHour
            refreshTokenID := some st.refreshTokens.length
            audience := audience
            revoked := false }
        (.token 200 accessRow.accessToken "Bearer"
            ((accessRow.expiresAt - env.now) / nanosPerSecond)
            refreshRow.refreshToken accessRow.scope,
          { codes := codes'
            accessTokens := st.accessTokens ++ [accessRow]
            refreshTokens := st.refreshTokens ++ [refreshRow] })

/-- `Server.handleAuthorizationCodeGrant`: read the code row, then
validate, mark used and issue tokens. -/
def handleAuthorizationCodeGrant (env : GrantEnv) (client : OAuthClient)
    (req : TokenRequest) (st : IssuerStores) : HttpResponse × IssuerStores :=
  handleGrantWithCode env client req (getAuthorizationCode st.codes req.code) st

/-- Whether a response is a JSON error body with the given status. -/
def HttpResponse.isJsonStatus (r : HttpResponse) (status : Nat) : Bool :=
  match r with
  | .json st _ _ => st == status
  | _ => false

/-! # Theorems settling the claims -/

/-- C5, counterexample: the claim `IsValid ⇔ ¬revoked ∧ now < expires_at`
(token invalid at the instant `now = expires_at`) is false: a non-revoked
access token whose `expires_at` equals the current instant is **valid**
(`IsExpired` uses strict `After`). -/
theorem isValid_at_expiry_counterexample :
    OAuthAccessToken.isValid
        ⟨"tok", "client-1", none, "mcp:read", 0, none, "http://aud", false⟩ 0 = true
      ∧ ¬ ((0 : Int) < (0 : Int)) := by
  constructor
  · decide
  · omega

/-- C5, amended: `IsValid` holds iff the token is not revoked and the
current time is **at or before** `expires_at` (`¬revoked ∧ now ≤ expires_at`);
at the instant `now = expires_at` the token is still valid. -/
theorem isValid_iff_not_revoked_and_not_after :
    ∀ (t : OAuthAccessToken) (now : Int),
      OAuthAccessToken.isValid t now = true ↔
        (t.revoked = false ∧ now ≤ t.expiresAt) := by
  intro t now
  simp [OAuthAccessToken.isValid, OAuthAccessToken.isExpired, not_lt]

/-- C5, witness for the amended theorem at a concrete token. -/
theorem isValid_iff_witness :
    OAuthAccessToken.isValid
        ⟨"tok", "client-1", none, "mcp:read", 5, none, "http://aud", false⟩ 3 = true := by
  exact (isValid_iff_not_revoked_and_not_after
    ⟨"tok", "client-1", none, "mcp:read", 5, none, "http://aud", false⟩ 3).mpr
    (by exact ⟨rfl, by norm_num⟩)

/-- Helper: a session that needs refresh has a non-empty refresh token. -/
theorem needsRefresh_refreshToken_ne {s : OAuthUpstreamSession} {now : Int}
    (h : s.needsRefresh now = true) : (s.refreshToken == "") = false := by
  unfold OAuthUpstreamSession.needsRefresh at h
  rcases Bool.and_eq_true _ _ |>.mp h with ⟨h1, _⟩
  simpa [bne] using h1

/-- C4, counterexample: with the access token exactly five minutes from
expiry (`expires_at − now = 5 min`) and a refresh token present,
`NeedsRefresh` is `false` — the code tests `now + 5min > expires_at`
strictly — while the claimed formula
`refresh_token ≠ "" ∧ (expires_at − now) ≤ 5 min` holds. -/
theorem needsRefresh_boundary_counterexample :
    OAuthUpstreamSession.needsRefresh
        ⟨"figma", "cid", "sec", "at", "r", "Bearer", some fiveMinutes, "",
         "", "", "", "", ""⟩ 0 = false
      ∧ ("r" : String) ≠ "" ∧ (fiveMinutes - 0 : Int) ≤ fiveMinutes := by
  refine ⟨by decide, by decide, by omega⟩

/-- C4, amended: the upstream token supplier's contract, with
`needs_refresh ⇔ refresh_token ≠ "" ∧ expires_at − now < 5 min` (strict):
no session fails with "no OAuth session found"; a session not needing
refresh returns the stored token with no write; needing refresh with an
empty refresh token fails with "access token expired and no refresh token
available" (vacuous, since needing refresh requires a non-empty refresh
token); otherwise the upstream refresh outcome is returned, the session
being rewritten with the new access token, expiry `now + expires_in`, and
the rotated refresh token only when the response carries a non-empty one. -/
theorem getOrRefreshUpstreamToken_contract :
    ∀ (s : OAuthUpstreamSession) (now : Int)
      (refresh : RefreshArgs → Except String TokenResponse) (name : String),
      (s.needsRefresh now = true ↔
        (s.refreshToken ≠ "" ∧ ∃ e, s.expiresAt = some e ∧ e - now < fiveMinutes))
      ∧ getOrRefreshUpstreamToken none now refresh name =
          .error ("no OAuth session found for server " ++ name)
      ∧ (s.needsRefresh now = false →
          getOrRefreshUpstreamToken (some s) now refresh name =
            .ok (s.accessToken, none))
      ∧ (s.needsRefresh now = true → s.refreshToken = "" →
          getOrRefreshUpstreamToken (some s) now refresh name =
            .error "access token expired and no refresh token available")
      ∧ (s.needsRefresh now = true → ∀ e,
          refresh ⟨s.tokenEndpoint, s.clientID, s.clientSecret,
            s.refreshToken, s.resourceURI⟩ = .error e →
          getOrRefreshUpstreamToken (some s) now refresh name =
            .error ("failed to refresh access token: " ++ e))
      ∧ (s.needsRefresh now = true → ∀ tr,
          refresh ⟨s.tokenEndpoint, s.clientID, s.clientSecret,
            s.refreshToken, s.resourceURI⟩ = .ok tr →
          getOrRefreshUpstreamToken (some s) now refresh name =
            .ok (tr.accessToken, some
              { s with
                accessToken := tr.accessToken
                expiresAt := some (now + tr.expiresIn * nanosPerSecond)
                tokenType := tr.tokenType
                refreshToken :=
                  if tr.refreshToken != "" then tr.refreshToken
                  else s.refreshToken })) := by
  intro s now refresh name
  refine ⟨?_, rfl, ?_, ?_, ?_, ?_⟩
  · unfold OAuthUpstreamSession.needsRefresh OAuthUpstreamSession.isAccessTokenExpired
    cases h : s.expiresAt with
    | none => simp [h, bne]
    | some e =>
      simp only [h, Bool.and_eq_true, bne_iff_ne, decide_eq_true_eq,
        Option.some.injEq]
      constructor
      · rintro ⟨h1, h2⟩
        exact ⟨h1, e, rfl, by omega⟩
      · rintro ⟨h1, e', rfl, h2⟩
        exact ⟨h1, by omega⟩
  · intro h
    simp [getOrRefreshUpstreamToken, h]
  · intro h h'
    simp [getOrRefreshUpstreamToken, h, h']
  · intro h e he
    simp [getOrRefreshUpstreamToken, h, needsRefresh_refreshToken_ne h, he]
  · intro h tr htr
    simp [getOrRefreshUpstreamToken, h, needsRefresh_refreshToken_ne h, htr]

/-- C4, witness: the contract applied to a concrete session five minutes
and one nanosecond short of expiry, whose upstream refresh succeeds and
rotates the refresh token. -/
theorem getOrRefreshUpstreamToken_contract_witness :
    getOrRefreshUpstreamToken
        (some ⟨"figma", "cid", "sec", "old-at", "old-rt", "Bearer",
          some (fiveMinutes - 1), "", "", "http://up/token", "http://up",
          "", ""⟩) 0
        (fun _ => .ok ⟨"new-at", "Bearer", 3600, "new-rt", ""⟩) "figma" =
      .ok ("new-at", some ⟨"figma", "cid", "sec", "new-at", "new-rt", "Bearer",
        some (3600 * nanosPerSecond), "", "", "http://up/token", "http://up",
        "", ""⟩) := by
  have h := (getOrRefreshUpstreamToken_contract
    ⟨"figma", "cid", "sec", "old-at", "old-rt", "Bearer",
      some (fiveMinutes - 1), "", "", "http://up/token", "http://up", "", ""⟩
    0 (fun _ => .ok ⟨"new-at", "Bearer", 3600, "new-rt", ""⟩)
    "figma").2.2.2.2.2 (by decide) ⟨"new-at", "Bearer", 3600, "new-rt", ""⟩ rfl
  simpa using h

/-- C10: a session with no recorded expiry (`expires_at = nil`) is never
considered expired and never needs refresh, whatever its refresh token, so
the supplier returns the stored access token unchanged, performs no write,
and its result does not depend on the upstream refresh call at all. -/
theorem noExpiry_never_refreshes :
    ∀ (s : OAuthUpstreamSession) (now : Int)
      (refresh refresh' : RefreshArgs → Except String TokenResponse)
      (name : String), s.expiresAt = none →
      s.isAccessTokenExpired now = false
      ∧ s.needsRefresh now = false
      ∧ getOrRefreshUpstreamToken (some s) now refresh name =
          .ok (s.accessToken, none)
      ∧ getOrRefreshUpstreamToken (some s) now refresh name =
          getOrRefreshUpstreamToken (some s) now refresh' name := by
  intro s now refresh refresh' name h
  have hexp : s.isAccessTokenExpired now = false := by
    unfold OAuthUpstreamSession.isAccessTokenExpired
    simp [h]
  have hnr : s.needsRefresh now = false := by
    unfold OAuthUpstreamSession.needsRefresh
    simp [hexp]
  refine ⟨hexp, hnr, ?_, ?_⟩
  · simp [getOrRefreshUpstreamToken, hnr]
  · simp [getOrRefreshUpstreamToken, hnr]

/-- C10, witness: a concrete expiry-less session with a refresh token
present, evaluated against two differing upstream refresh stubs. -/
theorem noExpiry_never_refreshes_witness :
    OAuthUpstreamSession.isAccessTokenExpired
        ⟨"up", "cid", "", "at", "rt", "Bearer", none, "", "", "", "", "", ""⟩ 999 = false
      ∧ OAuthUpstreamSession.needsRefresh
          ⟨"up", "cid", "", "at", "rt", "Bearer", none, "", "", "", "", "", ""⟩ 999 = false
      ∧ getOrRefreshUpstreamToken
          (some ⟨"up", "cid", "", "at", "rt", "Bearer", none, "", "", "", "", "", ""⟩)
          999 (fun _ => .error "refusing") "up" = .ok ("at", none)
      ∧ getOrRefreshUpstreamToken
          (some ⟨"up", "cid", "", "at", "rt", "Bearer", none, "", "", "", "", "", ""⟩)
          999 (fun _ => .error "refusing") "up" =
        getOrRefreshUpstreamToken
          (some ⟨"up", "cid", "", "at", "rt", "Bearer", none, "", "", "", "", "", ""⟩)
          999 (fun _ => .ok ⟨"other", "Bearer", 1, "r2", ""⟩) "up" := by
  exact noExpiry_never_refreshes
    ⟨"up", "cid", "", "at", "rt", "Bearer", none, "", "", "", "", "", ""⟩ 999
    (fun _ => .error "refusing") (fun _ => .ok ⟨"other", "Bearer", 1, "r2", ""⟩)
    "up" rfl

/-- C7: PKCE round-trip: a verifier always verifies against its own
challenge under `S256`, and the `plain` method (any method other than
`S256`) never verifies, whatever the challenge. -/
theorem verifyPKCE_round_trip :
    (∀ v, VerifyPKCE v (GeneratePKCEChallenge v) "S256" = true)
      ∧ (∀ v c, VerifyPKCE v c "plain" = false) := by
  constructor
  · intro v
    simp [VerifyPKCE]
  · intro v c
    simp [VerifyPKCE]

/-- Sanity check: the embedded SHA-256/base64url pipeline reproduces the
standard digest (`GeneratePKCEChallenge` of the empty verifier is the
unpadded base64url of SHA-256 of the empty string). -/
theorem generatePKCEChallenge_test_vector :
    GeneratePKCEChallenge "" = "47DEQpj8HBSa-_TImW-5JCeuQeRkm5NMpJWZG3hSuFU" := by
  decide

/-- Helper: membership after inserting a list of names into a set. -/
theorem mem_insertAll (x : String) :
    ∀ (ts : List String) (acc : Finset String),
      x ∈ insertAll ts acc ↔ x ∈ ts ∨ x ∈ acc := by
  intro ts
  induction ts with
  | nil => intro acc; simp [insertAll]
  | cons t ts ih =>
    intro acc
    have hstep : insertAll (t :: ts) acc = insertAll ts (insert t acc) := rfl
    rw [hstep, ih]
    simp [Finset.mem_insert]
    tauto

/-- Helper: membership after erasing a list of names from a set. -/
theorem mem_eraseAll (x : String) :
    ∀ (ts : List String) (acc : Finset String),
      x ∈ eraseAll ts acc ↔ x ∈ acc ∧ x ∉ ts := by
  intro ts
  induction ts with
  | nil => intro acc; simp [eraseAll]
  | cons t ts ih =>
    intro acc
    have hstep : eraseAll (t :: ts) acc = eraseAll ts (acc.erase t) := rfl
    rw [hstep, ih]
    simp [Finset.mem_erase]
    tauto

/-- Helper: the server loop of tool resolution, when every listed server
resolves, succeeds and contributes exactly the union of the servers'
tool names. -/
theorem addServerTools_ok (resolver : String → Except String (List Tool))
    (f : String → List Tool) :
    ∀ (servers : List String) (acc : Finset String),
      (∀ s ∈ servers, resolver s = .ok (f s)) →
      ∃ S, addServerTools resolver servers acc = .ok S ∧
        ∀ x, x ∈ S ↔ (x ∈ acc ∨ ∃ s ∈ servers, x ∈ (f s).map Tool.name) := by
  intro servers
  induction servers with
  | nil =>
    intro acc _
    exact ⟨acc, rfl, by simp⟩
  | cons s rest ih =>
    intro acc h
    have hs : resolver s = .ok (f s) := h s (by simp)
    obtain ⟨S, hS, hmem⟩ :=
      ih (insertAll ((f s).map Tool.name) acc) (fun s' hs' => h s' (by simp [hs']))
    refine ⟨S, ?_, ?_⟩
    · simp [addServerTools, hs, hS]
    · intro x
      constructor
      · intro hx
        rcases (hmem x).mp hx with h'' | ⟨s', hs', hx'⟩
        · rcases (mem_insertAll x _ _).mp h'' with hmap | hacc
          · exact Or.inr ⟨s, by simp, hmap⟩
          · exact Or.inl hacc
        · exact Or.inr ⟨s', by simp [hs'], hx'⟩
      · rintro (hacc | ⟨s', hs', hx'⟩)
        · exact (hmem x).mpr (Or.inl ((mem_insertAll x _ _).mpr (Or.inr hacc)))
        · rcases List.mem_cons.mp hs' with rfl | hrest
          · exact (hmem x).mpr (Or.inl ((mem_insertAll x _ _).mpr (Or.inl hx')))
          · exact (hmem x).mpr (Or.inr ⟨s', hrest, hx'⟩)

/-- Helper: the server loop of prompt resolution, same statement. -/
theorem addServerPrompts_ok (resolver : String → Except String (List Prompt))
    (f : String → List Prompt) :
    ∀ (servers : List String) (acc : Finset String),
      (∀ s ∈ servers, resolver s = .ok (f s)) →
      ∃ S, addServerPrompts resolver servers acc = .ok S ∧
        ∀ x, x ∈ S ↔ (x ∈ acc ∨ ∃ s ∈ servers, x ∈ (f s).map Prompt.name) := by
  intro servers
  induction servers with
  | nil =>
    intro acc _
    exact ⟨acc, rfl, by simp⟩
  | cons s rest ih =>
    intro acc h
    have hs : resolver s = .ok (f s) := h s (by simp)
    obtain ⟨S, hS, hmem⟩ :=
      ih (insertAll ((f s).map Prompt.name) acc) (fun s' hs' => h s' (by simp [hs']))
    refine ⟨S, ?_, ?_⟩
    · simp [addServerPrompts, hs, hS]
    · intro x
      constructor
      · intro hx
        rcases (hmem x).mp hx with h'' | ⟨s', hs', hx'⟩
        · rcases (mem_insertAll x _ _).mp h'' with hmap | hacc
          · exact Or.inr ⟨s, by simp, hmap⟩
          · exact Or.inl hacc
        · exact Or.inr ⟨s', by simp [hs'], hx'⟩
      · rintro (hacc | ⟨s', hs', hx'⟩)
        · exact (hmem x).mpr (Or.inl ((mem_insertAll x _ _).mpr (Or.inr hacc)))
        · rcases List.mem_cons.mp hs' with rfl | hrest
          · exact (hmem x).mpr (Or.inl ((mem_insertAll x _ _).mpr (Or.inl hx')))
          · exact (hmem x).mpr (Or.inr ⟨s', hrest, hx'⟩)

/-- C8: when every included server resolves (to `ft`/`fp`), the effective
tool set is exactly
`(included_tools ∪ ⋃ server_tools(included_servers)) ∖ excluded_tools` —
exclusions applied last, so a name both included and excluded is excluded —
and effective prompts satisfy the same equation over `included_prompts`,
`included_servers` and `excluded_prompts`. -/
theorem resolveEffective_eq_included_union_servers_minus_excluded :
    ∀ (g : ToolGroup) (toolResolver : String → Except String (List Tool))
      (promptResolver : String → Except String (List Prompt))
      (ft : String → List Tool) (fp : String → List Prompt),
      (∀ s ∈ g.includedServers, toolResolver s = .ok (ft s)) →
      (∀ s ∈ g.includedServers, promptResolver s = .ok (fp s)) →
      (∃ T, g.resolveEffectiveTools toolResolver = .ok T ∧
        ∀ x, x ∈ T ↔
          ((x ∈ g.includedTools ∨
              ∃ s ∈ g.includedServers, x ∈ (ft s).map Tool.name) ∧
            x ∉ g.excludedTools))
      ∧ (∃ P, g.resolveEffectivePrompts promptResolver = .ok P ∧
          ∀ x, x ∈ P ↔
            ((x ∈ g.includedPrompts ∨
                ∃ s ∈ g.includedServers, x ∈ (fp s).map Prompt.name) ∧
              x ∉ g.excludedPrompts)) := by
  intro g toolResolver promptResolver ft fp hft hfp
  constructor
  · obtain ⟨S, hS, hmem⟩ :=
      addServerTools_ok toolResolver ft g.includedServers
        (insertAll g.includedTools ∅) hft
    refine ⟨eraseAll g.excludedTools S, ?_, ?_⟩
    · simp [ToolGroup.resolveEffectiveTools, hS]
    · intro x
      rw [mem_eraseAll, hmem x, mem_insertAll]
      simp
  · obtain ⟨S, hS, hmem⟩ :=
      addServerPrompts_ok promptResolver fp g.includedServers
        (insertAll g.includedPrompts ∅) hfp
    refine ⟨eraseAll g.excludedPrompts S, ?_, ?_⟩
    · simp [ToolGroup.resolveEffectivePrompts, hS]
    · intro x
      rw [mem_eraseAll, hmem x, mem_insertAll]
      simp

/-- C8, witness: the characterization applied to a concrete group that
both includes and excludes `fs__read` (the exclusion wins) and pulls
`srv__t1` from its included server. -/
theorem resolveEffective_witness :
    (∃ T, ToolGroup.resolveEffectiveTools
        ⟨"grp", ["git__commit", "fs__read"], ["srv"], ["fs__read"], ["p1"], []⟩
        (fun _ => .ok [⟨"srv__t1"⟩]) = .ok T ∧
      ∀ x, x ∈ T ↔
        ((x ∈ ["git__commit", "fs__read"] ∨
            ∃ s ∈ ["srv"], x ∈ ([(⟨"srv__t1"⟩ : Tool)].map Tool.name)) ∧
          x ∉ ["fs__read"]))
    ∧ (∃ P, ToolGroup.resolveEffectivePrompts
          ⟨"grp", ["git__commit", "fs__read"], ["srv"], ["fs__read"], ["p1"], []⟩
          (fun _ => .ok [⟨"srv__p1"⟩]) = .ok P ∧
        ∀ x, x ∈ P ↔
          ((x ∈ ["p1"] ∨
              ∃ s ∈ ["srv"], x ∈ ([(⟨"srv__p1"⟩ : Prompt)].map Prompt.name)) ∧
            x ∉ ([] : List String))) := by
  exact resolveEffective_eq_included_union_servers_minus_excluded
    ⟨"grp", ["git__commit", "fs__read"], ["srv"], ["fs__read"], ["p1"], []⟩
    (fun _ => .ok [⟨"srv__t1"⟩]) (fun _ => .ok [⟨"srv__p1"⟩])
    (fun _ => [⟨"srv__t1"⟩]) (fun _ => [⟨"srv__p1"⟩])
    (fun _ _ => rfl) (fun _ _ => rfl)

/-- Helper: when every group the checker can find resolves, the group scan
succeeds and returns `true` exactly when some listed, existing group's
effective tool set contains the tool (missing groups skipped). -/
theorem toolExists_ok :
    ∀ (toolName : String) (checker : String → Option ToolGroup)
      (resolver : String → Except String (List Tool)) (groups : List String),
      (∀ gname ∈ groups, ∀ tg, checker gname = some tg →
        ∃ T, ToolGroup.resolveEffectiveTools tg resolver = .ok T) →
      ∃ b, McpClient.toolExistsInAllowedGroups toolName checker resolver groups = .ok b ∧
        (b = true ↔ ∃ gname ∈ groups, ∃ tg T, checker gname = some tg ∧
          ToolGroup.resolveEffectiveTools tg resolver = .ok T ∧ toolName ∈ T) := by
  intro toolName checker resolver groups
  induction groups with
  | nil =>
    intro _
    exact ⟨false, rfl, by simp⟩
  | cons g rest ih =>
    intro h
    have hrest := ih (fun g' hg' => h g' (by simp [hg']))
    cases hchk : checker g with
    | none =>
      obtain ⟨b, hb, hiff⟩ := hrest
      refine ⟨b, ?_, ?_⟩
      · simp [McpClient.toolExistsInAllowedGroups, hchk, hb]
      · rw [hiff]
        constructor
        · rintro ⟨g', hg', rest'⟩
          exact ⟨g', by simp [hg'], rest'⟩
        · rintro ⟨g', hg', tg, T, htg, hT, hmem⟩
          rcases List.mem_cons.mp hg' with rfl | hg'rest
          · rw [hchk] at htg; cases htg
          · exact ⟨g', hg'rest, tg, T, htg, hT, hmem⟩
    | some tg =>
      obtain ⟨T, hT⟩ := h g (by simp) tg hchk
      by_cases hmem : toolName ∈ T
      · refine ⟨true, ?_, ?_⟩
        · simp [McpClient.toolExistsInAllowedGroups, hchk, hT, hmem]
        · constructor
          · intro _
            exact ⟨g, by simp, tg, T, hchk, hT, hmem⟩
          · intro _
            rfl
      · obtain ⟨b, hb, hiff⟩ := hrest
        refine ⟨b, ?_, ?_⟩
        · simp [McpClient.toolExistsInAllowedGroups, hchk, hT, hmem, hb]
        · rw [hiff]
          constructor
          · rintro ⟨g', hg', rest'⟩
            exact ⟨g', by simp [hg'], rest'⟩
          · rintro ⟨g', hg', tg', T', htg', hT', hmem'⟩
            rcases List.mem_cons.mp hg' with rfl | hg'rest
            · rw [hchk] at htg'
              cases htg'
              rw [hT] at hT'
              cases hT'
              exact absurd hmem' hmem
            · exact ⟨g', hg'rest, tg', T', htg', hT', hmem'⟩

/-- C1: for a client with a non-empty `allowed_tool_groups` (and every
found group resolving), `CheckHasToolAccess` succeeds, grants exactly when
some listed, existing group's effective tool set contains the canonical
name (missing groups skipped silently), denies when no listed group
contains it, and never consults `allow_list` (the result is invariant
under replacing the allow list); for a client with empty
`allowed_tool_groups`, access is granted iff the server name parsed at the
first `__` is in `allow_list`. -/
theorem checkHasToolAccess_spec :
    ∀ (c : McpClient) (toolName : String)
      (checker : String → Option ToolGroup)
      (resolver : String → Except String (List Tool)),
      (∀ gname ∈ c.allowedToolGroups, ∀ tg, checker gname = some tg →
        ∃ T, ToolGroup.resolveEffectiveTools tg resolver = .ok T) →
      (c.allowedToolGroups ≠ [] →
        (∃ b, c.checkHasToolAccess toolName checker resolver = .ok b)
        ∧ (c.checkHasToolAccess toolName checker resolver = .ok true ↔
            ∃ gname ∈ c.allowedToolGroups, ∃ tg T, checker gname = some tg ∧
              ToolGroup.resolveEffectiveTools tg resolver = .ok T ∧ toolName ∈ T)
        ∧ (¬ (∃ gname ∈ c.allowedToolGroups, ∃ tg T, checker gname = some tg ∧
              ToolGroup.resolveEffectiveTools tg resolver = .ok T ∧ toolName ∈ T) →
            c.checkHasToolAccess toolName checker resolver = .ok false)
        ∧ (∀ al : List String,
            McpClient.checkHasToolAccess ⟨c.name, c.accessToken, al, c.allowedToolGroups⟩
              toolName checker resolver =
            c.checkHasToolAccess toolName checker resolver))
      ∧ (c.allowedToolGroups = [] →
          ∀ srv tool, splitServerToolName toolName = some (srv, tool) →
            c.checkHasToolAccess toolName checker resolver =
              .ok (c.allowList.contains srv)) := by
  intro c toolName checker resolver h
  constructor
  · intro hne
    have hlen : c.allowedToolGroups.length > 0 := List.length_pos.mpr hne
    have hunfold : c.checkHasToolAccess toolName checker resolver =
        McpClient.toolExistsInAllowedGroups toolName checker resolver
          c.allowedToolGroups := by
      simp [McpClient.checkHasToolAccess, hlen]
    obtain ⟨b, hb, hiff⟩ := toolExists_ok toolName checker resolver c.allowedToolGroups h
    refine ⟨⟨b, by rw [hunfold]; exact hb⟩, ?_, ?_, ?_⟩
    · rw [hunfold, hb]
      constructor
      · intro h'
        exact hiff.mp (by simpa using h')
      · intro hex
        simp [hiff.mpr hex]
    · intro hnex
      rw [hunfold, hb]
      have hbf : b = false := by
        cases hb' : b
        · rfl
        · exact absurd (hiff.mp hb') hnex
      rw [hbf]
    · intro al
      simp [McpClient.checkHasToolAccess, hlen]
  · intro hempty srv tool hsplit
    simp [McpClient.checkHasToolAccess, hempty, hsplit,
      McpClient.checkHasServerAccess]

/-- C1, witness (spec scenario S7): a client allow-listing server `s2` but
restricted to group `g1 = {s1__t}` is granted `s1__t` and denied `s2__t` —
the allow list is suppressed by the non-empty group set. -/
theorem checkHasToolAccess_witness :
    McpClient.checkHasToolAccess ⟨"cl", "tok", ["s2"], ["g1"]⟩ "s1__t"
        (fun g => if g == "g1" then some ⟨"g1", ["s1__t"], [], [], [], []⟩ else none)
        (fun _ => .ok []) = .ok true
      ∧ McpClient.checkHasToolAccess ⟨"cl", "tok", ["s2"], ["g1"]⟩ "s2__t"
          (fun g => if g == "g1" then some ⟨"g1", ["s1__t"], [], [], [], []⟩ else none)
          (fun _ => .ok []) = .ok false := by
  have hres : ∀ gname ∈ ["g1"], ∀ tg,
      (fun g => if g == "g1" then
        some (⟨"g1", ["s1__t"], [], [], [], []⟩ : ToolGroup) else none) gname = some tg →
      ∃ T, ToolGroup.resolveEffectiveTools tg (fun _ => .ok []) = .ok T := by
    intro gname hg tg htg
    fin_cases hg
    simp at htg
    subst htg
    exact ⟨_, rfl⟩
  constructor
  · exact ((checkHasToolAccess_spec ⟨"cl", "tok", ["s2"], ["g1"]⟩ "s1__t"
      (fun g => if g == "g1" then some ⟨"g1", ["s1__t"], [], [], [], []⟩ else none)
      (fun _ => .ok []) hres).1 (by simp)).2.1.mpr
      ⟨"g1", by simp, ⟨"g1", ["s1__t"], [], [], [], []⟩, _, rfl, rfl, by decide⟩
  · refine ((checkHasToolAccess_spec ⟨"cl", "tok", ["s2"], ["g1"]⟩ "s2__t"
      (fun g => if g == "g1" then some ⟨"g1", ["s1__t"], [], [], [], []⟩ else none)
      (fun _ => .ok []) hres).1 (by simp)).2.2.1 ?_
    rintro ⟨gname, hg, tg, T, htg, hT, hmem⟩
    fin_cases hg
    simp at htg
    subst htg
    have : T = eraseAll [] (insertAll ["s1__t"] ∅) := by
      simpa [ToolGroup.resolveEffectiveTools, addServerTools] using hT.symm
    subst this
    revert hmem
    decide

/-- C9, counterexample: a payload hiding `"token"` inside a map that sits
in a list survives filtering un-redacted, so the stored changes document
does contain a value under a redacted key other than `"[REDACTED]"`. -/
theorem filterSensitiveData_list_counterexample :
    deepClean (JsonValue.obj (filterSensitiveData
      [("items", JsonValue.arr [JsonValue.obj [("token", JsonValue.str "s3cr3t")]])])) = false
      ∧ logUpdateChanges
          [("items", JsonValue.arr [JsonValue.obj [("token", JsonValue.str "s3cr3t")]])] =
        [("items", JsonValue.arr [JsonValue.obj [("token", JsonValue.str "s3cr3t")]])] := by
  constructor
  · simp [filterSensitiveData, deepClean, sensitiveFields, isRedactedLit]
  · simp [logUpdateChanges, filterSensitiveData, sensitiveFields]

/-- Helper: a value that is not an object is trivially map-clean. -/
theorem mapClean_of_ne_obj (v : JsonValue)
    (h : ∀ m, v ≠ JsonValue.obj m) : mapClean v = true := by
  cases v with
  | obj m => exact absurd rfl (h m)
  | str s => simp [mapClean]
  | num n => simp [mapClean]
  | jbool b => simp [mapClean]
  | null => simp [mapClean]
  | arr xs => simp [mapClean]

/-- Helper: `filterSensitiveData` makes its output map-clean: every
sensitive key reachable through nested objects only maps to
`"[REDACTED]"`. -/
theorem filterSensitiveData_mapClean :
    ∀ data, mapClean (JsonValue.obj (filterSensitiveData data)) = true := by
  intro data
  induction data using filterSensitiveData.induct with
  | case1 =>
    simp [filterSensitiveData, mapClean]
  | case2 k v rest hk ih =>
    have hk' : k ∈ sensitiveFields := by simpa using hk
    cases v <;>
      simp [filterSensitiveData, mapClean.eq_2, hk', isRedactedLit, ih]
  | case3 k rest hk m ihm ihrest =>
    have hk' : k ∉ sensitiveFields := by simpa using hk
    simp [filterSensitiveData, mapClean.eq_2, hk', ihm, ihrest]
  | case4 k v rest hk hnobj ih =>
    have hk' : k ∉ sensitiveFields := by simpa using hk
    simp [filterSensitiveData, mapClean.eq_2, hk', ih,
      mapClean_of_ne_obj v hnobj]

/-- C9, amended: redaction holds on every path of nested string-keyed
maps — in the filtered document of `filterSensitiveData` and of the
`log_create/update/enable/disable` payload wrappers, every sensitive key
reachable without crossing a list maps to the literal `"[REDACTED]"` —
but keys inside list elements are not descended into and may retain their
values. -/
theorem audit_redaction_mapClean :
    ∀ (data : JsonValue) (changes details : List (String × JsonValue)),
      mapClean (JsonValue.obj (logCreateChanges data)) = true
      ∧ mapClean (JsonValue.obj (logUpdateChanges changes)) = true
      ∧ mapClean (JsonValue.obj (logEnableChanges details)) = true
      ∧ mapClean (JsonValue.obj (logDisableChanges details)) = true := by
  intro data changes details
  exact ⟨filterSensitiveData_mapClean _, filterSensitiveData_mapClean _,
    filterSensitiveData_mapClean _, filterSensitiveData_mapClean _⟩

/-- C6, counterexample: a request whose `response_type` is not `code` — an
error detected before the client or redirect URI has been validated — is
answered with a 302 redirect carrying error parameters, not with a JSON
400 response. -/
theorem authorize_responseType_redirects_counterexample :
    authorizeHandler
        ⟨fun _ => none, .absent, .error "unused", fun _ => true⟩
        ⟨"c1", "http://x/cb", "token", "", "st", "", ""⟩ =
      .redirect 302 "http://x/cb"
        [("error", "unsupported_response_type"),
         ("error_description", "Only authorization_code flow is supported"),
         ("state", "st")]
      ∧ HttpResponse.isJsonStatus
          (authorizeHandler
            ⟨fun _ => none, .absent, .error "unused", fun _ => true⟩
            ⟨"c1", "http://x/cb", "token", "", "st", "", ""⟩) 400 = false := by
  exact ⟨rfl, rfl⟩

/-- C6, amended: at `GET /oauth/authorize`, only missing required
parameters (`client_id`, `redirect_uri`, `response_type`) and an invalid
(unregistered, or unparsable) `redirect_uri` yield a JSON 400; every other
error — unsupported `response_type`, missing PKCE, non-`S256` method,
unknown client, scope rejection, missing or malformed user binding, and
code-issuance failure — is a 302 redirect to `redirect_uri` carrying
`error`, `error_description` (when non-empty) and `state` (when
non-empty); on success the redirect carries `code` and `state`. -/
theorem authorizeHandler_error_channels :
    ∀ (env : AuthorizeEnv) (req : AuthorizeRequest),
      ((req.clientID = "" ∨ req.redirectURI = "" ∨ req.responseType = "") →
        authorizeHandler env req =
          .json 400 "invalid_request" "Missing required parameters")
      ∧ (req.clientID ≠ "" → req.redirectURI ≠ "" → req.responseType ≠ "" →
          req.responseType ≠ "code" → env.urlParses req.redirectURI = true →
          authorizeHandler env req =
            .redirect 302 req.redirectURI
              (("error", "unsupported_response_type") ::
                ("error_description", "Only authorization_code flow is supported") ::
                (if req.state != "" then [("state", req.state)] else [])))
      ∧ (req.clientID ≠ "" → req.redirectURI ≠ "" → req.responseType = "code" →
          (req.codeChallenge = "" ∨ req.codeChallengeMethod = "") →
          env.urlParses req.redirectURI = true →
          authorizeHandler env req =
            .redirect 302 req.redirectURI
              (("error", "invalid_request") ::
                ("error_description",
                  "PKCE is required: code_challenge and code_challenge_method must be provided") ::
                (if req.state != "" then [("state", req.state)] else [])))
      ∧ (req.clientID ≠ "" → req.redirectURI ≠ "" → req.responseType = "code" →
          req.codeChallenge ≠ "" → req.codeChallengeMethod ≠ "" →
          req.codeChallengeMethod ≠ "S256" →
          env.urlParses req.redirectURI = true →
          authorizeHandler env req =
            .redirect 302 req.redirectURI
              (("error", "invalid_request") ::
                ("error_description", "Only S256 code_challenge_method is supported") ::
                (if req.state != "" then [("state", req.state)] else [])))
      ∧ (req.clientID ≠ "" → req.redirectURI ≠ "" → req.responseType = "code" →
          req.codeChallenge ≠ "" → req.codeChallengeMethod = "S256" →
          env.getClient req.clientID = none →
          env.urlParses req.redirectURI = true →
          authorizeHandler env req =
            .redirect 302 req.redirectURI
              (("error", "invalid_client") ::
                ("error_description", "Client not found") ::
                (if req.state != "" then [("state", req.state)] else [])))
      ∧ (∀ client, req.clientID ≠ "" → req.redirectURI ≠ "" →
          req.responseType = "code" → req.codeChallenge ≠ "" →
          req.codeChallengeMethod = "S256" →
          env.getClient req.clientID = some client →
          validateRedirectURI client req.redirectURI = false →
          authorizeHandler env req =
            .json 400 "invalid_request" "Invalid redirect_uri")
      ∧ (∀ client e, req.clientID ≠ "" → req.redirectURI ≠ "" →
          req.responseType = "code" → req.codeChallenge ≠ "" →
          req.codeChallengeMethod = "S256" →
          env.getClient req.clientID = some client →
          validateRedirectURI client req.redirectURI = true →
          validateScopes client req.scope = .error e →
          env.urlParses req.redirectURI = true →
          authorizeHandler env req =
            .redirect 302 req.redirectURI
              (("error", "invalid_scope") ::
                ((if e != "" then [("error_description", e)] else []) ++
                  (if req.state != "" then [("state", req.state)] else []))))
      ∧ (∀ client sc, req.clientID ≠ "" → req.redirectURI ≠ "" →
          req.responseType = "code" → req.codeChallenge ≠ "" →
          req.codeChallengeMethod = "S256" →
          env.getClient req.clientID = some client →
          validateRedirectURI client req.redirectURI = true →
          validateScopes client req.scope = .ok sc →
          env.user = .absent →
          env.urlParses req.redirectURI = true →
          authorizeHandler env req =
            .redirect 302 req.redirectURI
              (("error", "access_denied") ::
                ("error_description", "User authentication required") ::
                (if req.state != "" then [("state", req.state)] else [])))
      ∧ (∀ client sc, req.clientID ≠ "" → req.redirectURI ≠ "" →
          req.responseType = "code" → req.codeChallenge ≠ "" →
          req.codeChallengeMethod = "S256" →
          env.getClient req.clientID = some client →
          validateRedirectURI client req.redirectURI = true →
          validateScopes client req.scope = .ok sc →
          env.user = .invalidType →
          env.urlParses req.redirectURI = true →
          authorizeHandler env req =
            .redirect 302 req.redirectURI
              (("error", "server_error") ::
                ("error_description", "Invalid user session") ::
                (if req.state != "" then [("state", req.state)] else [])))
      ∧ (∀ client sc uid e, req.clientID ≠ "" → req.redirectURI ≠ "" →
          req.responseType = "code" → req.codeChallenge ≠ "" →
          req.codeChallengeMethod = "S256" →
          env.getClient req.clientID = some client →
          validateRedirectURI client req.redirectURI = true →
          validateScopes client req.scope = .ok sc →
          env.user = .user uid →
          env.createCode = .error e →
          env.urlParses req.redirectURI = true →
          authorizeHandler env req =
            .redirect 302 req.redirectURI
              (("error", "server_error") ::
                ("error_description", "Failed to generate authorization code") ::
                (if req.state != "" then [("state", req.state)] else [])))
      ∧ (∀ client sc uid code, req.clientID ≠ "" → req.redirectURI ≠ "" →
          req.responseType = "code" → req.codeChallenge ≠ "" →
          req.codeChallengeMethod = "S256" →
          env.getClient req.clientID = some client →
          validateRedirectURI client req.redirectURI = true →
          validateScopes client req.scope = .ok sc →
          env.user = .user uid →
          env.createCode = .ok code →
          authorizeHandler env req =
            .redirect 302 req.redirectURI
              (("code", code) ::
                (if req.state != "" then [("state", req.state)] else []))) := by
  intro env req
  refine ⟨?_, ?_, ?_, ?_, ?_, ?_, ?_, ?_, ?_, ?_, ?_⟩
  · rintro (h | h | h) <;> simp [authorizeHandler, h]
  · intro h1 h2 h3 h4 hurl
    simp [authorizeHandler, redirectError, h1, h2, h3, h4, hurl]
  · intro h1 h2 h3 hpkce hurl
    rcases hpkce with h | h <;>
      simp [authorizeHandler, redirectError, h1, h2, h3, h, hurl]
  · intro h1 h2 h3 h4 h5 h6 hurl
    simp [authorizeHandler, redirectError, h1, h2, h3, h4, h5, h6, hurl]
  · intro h1 h2 h3 h4 h5 hclient hurl
    simp [authorizeHandler, redirectError, h1, h2, h3, h4, h5, hclient, hurl]
  · intro client h1 h2 h3 h4 h5 hclient hredir
    simp [authorizeHandler, redirectError, h1, h2, h3, h4, h5, hclient, hredir]
  · intro client e h1 h2 h3 h4 h5 hclient hredir hscope hurl
    simp [authorizeHandler, redirectError, h1, h2, h3, h4, h5, hclient,
      hredir, hscope, hurl]
  · intro client sc h1 h2 h3 h4 h5 hclient hredir hscope huser hurl
    simp [authorizeHandler, redirectError, h1, h2, h3, h4, h5, hclient,
      hredir, hscope, huser, hurl]
  · intro client sc h1 h2 h3 h4 h5 hclient hredir hscope huser hurl
    simp [authorizeHandler, redirectError, h1, h2, h3, h4, h5, hclient,
      hredir, hscope, huser, hurl]
  · intro client sc uid e h1 h2 h3 h4 h5 hclient hredir hscope huser hcode hurl
    simp [authorizeHandler, redirectError, h1, h2, h3, h4, h5, hclient,
      hredir, hscope, huser, hcode, hurl]
  · intro client sc uid code h1 h2 h3 h4 h5 hclient hredir hscope huser hcode
    simp [authorizeHandler, redirectError, h1, h2, h3, h4, h5, hclient,
      hredir, hscope, huser, hcode]

/-- C6, witness: the characterization applied to a request missing its
`client_id` (JSON 400 branch). -/
theorem authorizeHandler_error_channels_witness :
    authorizeHandler
        ⟨fun _ => none, .absent, .error "unused", fun _ => true⟩
        ⟨"", "http://x/cb", "code", "", "", "ch", "S256"⟩ =
      .json 400 "invalid_request" "Missing required parameters" := by
  exact (authorizeHandler_error_channels
    ⟨fun _ => none, .absent, .error "unused", fun _ => true⟩
    ⟨"", "http://x/cb", "code", "", "", "ch", "S256"⟩).1 (Or.inl rfl)

/-- C2: evaluating `POST /oauth/revoke` at the failing inputs.  A request
carrying a token but no client credentials is answered 400, and one with
wrong credentials 401 — not the claimed unconditional 200 (the repository
README lists this among "Minor Issues Found").  Moreover, with valid
credentials, presenting a stored *refresh* token still returns 200 but
leaves the refresh token unrevoked: `RevokeAccessToken` reports success
even when it matches no row, so the handler's refresh-token fallback is
dead code. -/
theorem revokeHandler_bug :
    revokeHandler ⟨none, fun _ => none, fun _ _ => false⟩ (some "sometoken")
        ⟨[], []⟩ =
      (.json 400 "invalid_client" "Client authentication required", ⟨[], []⟩)
      ∧ revokeHandler
          ⟨some ("c1", "wrong-secret"), fun _ => none, fun _ _ => false⟩
          (some "sometoken") ⟨[], []⟩ =
        (.json 401 "invalid_client" "Invalid client credentials", ⟨[], []⟩)
      ∧ revokeHandler
          ⟨some ("c1", ""),
            fun _ => some ⟨"c1", "", "App", [], [], [], false, "none"⟩,
            fun _ _ => false⟩
          (some "stored-refresh-token")
          ⟨[], [⟨"stored-refresh-token", "c1", 1, "mcp:read", 99, false, 0⟩]⟩ =
        (.empty 200,
          ⟨[], [⟨"stored-refresh-token", "c1", 1, "mcp:read", 99, false, 0⟩]⟩) := by
  exact ⟨rfl, rfl, rfl⟩

/-- Helper: reading a code after marking it used returns the marked row. -/
theorem getAuthorizationCode_mark (st : List OAuthAuthorizationCode)
    (code : String) :
    getAuthorizationCode (markAuthorizationCodeUsed st code) code =
      (getAuthorizationCode st code).map (fun r => { r with used := true }) := by
  induction st with
  | nil => rfl
  | cons r rest ih =>
    have hstep : markAuthorizationCodeUsed (r :: rest) code =
        (if r.code == code then { r with used := true } else r) ::
          markAuthorizationCodeUsed rest code := rfl
    by_cases hc : (r.code == code) = true
    · rw [hstep, if_pos hc]
      simp [getAuthorizationCode, List.find?_cons, hc]
    · have hc' : (r.code == code) = false := by simpa using hc
      rw [hstep, if_neg hc]
      simpa [getAuthorizationCode, List.find?_cons, hc'] using ih

/-- C3, amended: the `used` flag only ever transitions `false → true`
(the mark is an idempotent `SET used = true` on the rows whose `code`
matches, leaving every other row's flag untouched), and a **sequential**
second exchange of the same code fails with `invalid_grant` and yields no
tokens — because the validity re-check observes `used = true`, not because
the mark is conditional: the actual `UPDATE ... WHERE code = ?` succeeds
regardless of the prior flag and its outcome is ignored by the handler. -/
theorem authCode_used_monotone_and_sequential_replay :
    (∀ (st : List OAuthAuthorizationCode) (code : String) (i : Nat)
        (h : i < st.length),
        ((markAuthorizationCodeUsed st code).get
            ⟨i, by simpa [markAuthorizationCodeUsed] using h⟩).used =
          ((st.get ⟨i, h⟩).used || ((st.get ⟨i, h⟩).code == code)))
    ∧ (∀ (env env' : GrantEnv) (client client' : OAuthClient)
        (req : TokenRequest) (st st1 : IssuerStores)
        (a tt : String) (ei : Int) (rt sc : String),
        handleAuthorizationCodeGrant env client req st =
          (.token 200 a tt ei rt sc, st1) →
        (handleAuthorizationCodeGrant env' client' req st1).1 =
          .json 400 "invalid_grant" "Authorization code expired or already used") := by
  constructor
  · intro st code i h
    simp only [markAuthorizationCodeUsed, List.get_eq_getElem, List.getElem_map]
    by_cases hc : st[i].code = code <;> simp [hc]
  · intro env env' client client' req st st1 a tt ei rt sc h
    unfold handleAuthorizationCodeGrant at h ⊢
    unfold handleGrantWithCode at h
    by_cases hg : (req.code == "" || req.redirectURI == "" || req.codeVerifier == "") = true
    · rw [if_pos hg] at h
      simp at h
    · rw [if_neg hg] at h
      cases hfind : getAuthorizationCode st.codes req.code with
      | none =>
        rw [hfind] at h
        simp at h
      | some authCode =>
        rw [hfind] at h
        by_cases hvalid : authCode.isValid env.now = true
        · by_cases hcl : (authCode.clientID != client.clientID) = true
          · simp [hvalid, hcl] at h
          · by_cases hred : (authCode.redirectURI != req.redirectURI) = true
            · simp [hvalid, hcl, hred] at h
            · by_cases hpkce : VerifyPKCE req.codeVerifier authCode.codeChallenge
                  authCode.codeChallengeMethod = true
              · simp only [hvalid, hcl, hred, hpkce, Bool.not_true,
                  Bool.false_eq_true, if_false, if_neg] at h
                have hst1 : st1.codes = markAuthorizationCodeUsed st.codes req.code := by
                  have := congrArg Prod.snd h
                  simp at this
                  rw [← this]
                have hused : authCode.code == req.code := by
                  have := List.find?_some hfind
                  simpa [getAuthorizationCode] using this
                unfold handleGrantWithCode
                rw [if_neg hg, hst1, getAuthorizationCode_mark, hfind]
                simp [OAuthAuthorizationCode.isValid]
              · simp [hvalid, hcl, hred, hpkce] at h
        · simp [hvalid] at h

/-- C3, counterexample: the marking is not an atomic conditional update —
two exchanges of the same code, the second of which performed its database
read before the first one marked the code, **both** return 200 with fresh
tokens; a conditional `UPDATE ... WHERE used = false` treating zero
affected rows as replay would have rejected the second. -/
theorem authCode_interleaved_double_spend :
    (handleAuthorizationCodeGrant ⟨0, "http://mj", "AT1", "RT1"⟩
        ⟨"cid", "", "App", ["http://x/cb"], [], [], false, "none"⟩
        ⟨"authorization_code", "K", "http://x/cb", "v", "", ""⟩
        ⟨[⟨"K", "cid", 7, "http://x/cb", "mcp:read", 1000,
            GeneratePKCEChallenge "v", "S256", false⟩], [], []⟩).1 =
      .token 200 "AT1" "Bearer" 3600 "RT1" "mcp:read"
      ∧ (handleGrantWithCode ⟨0, "http://mj", "AT2", "RT2"⟩
          ⟨"cid", "", "App", ["http://x/cb"], [], [], false, "none"⟩
          ⟨"authorization_code", "K", "http://x/cb", "v", "", ""⟩
          (getAuthorizationCode
            [⟨"K", "cid", 7, "http://x/cb", "mcp:read", 1000,
              GeneratePKCEChallenge "v", "S256", false⟩] "K")
          (handleAuthorizationCodeGrant ⟨0, "http://mj", "AT1", "RT1"⟩
            ⟨"cid", "", "App", ["http://x/cb"], [], [], false, "none"⟩
            ⟨"authorization_code", "K", "http://x/cb", "v", "", ""⟩
            ⟨[⟨"K", "cid", 7, "http://x/cb", "mcp:read", 1000,
                GeneratePKCEChallenge "v", "S256", false⟩], [], []⟩).2).1 =
        .token 200 "AT2" "Bearer" 3600 "RT2" "mcp:read" := by
  exact ⟨by decide, by decide⟩

/-- C3, witness: the sequential-replay half of the amended theorem at a
concrete store — the second exchange of code `K` is rejected with
`invalid_grant`. -/
theorem authCode_sequential_replay_witness :
    (handleAuthorizationCodeGrant ⟨0, "http://mj", "AT2", "RT2"⟩
        ⟨"cid", "", "App", ["http://x/cb"], [], [], false, "none"⟩
        ⟨"authorization_code", "K", "http://x/cb", "v", "", ""⟩
        (handleAuthorizationCodeGrant ⟨0, "http://mj", "AT1", "RT1"⟩
          ⟨"cid", "", "App", ["http://x/cb"], [], [], false, "none"⟩
          ⟨"authorization_code", "K", "http://x/cb", "v", "", ""⟩
          ⟨[⟨"K", "cid", 7, "http://x/cb", "mcp:read", 1000,
              GeneratePKCEChallenge "v", "S256", false⟩], [], []⟩).2).1 =
      .json 400 "invalid_grant" "Authorization code expired or already used" := by
  exact authCode_used_monotone_and_sequential_replay.2
    ⟨0, "http://mj", "AT1", "RT1"⟩ ⟨0, "http://mj", "AT2", "RT2"⟩
    ⟨"cid", "", "App", ["http://x/cb"], [], [], false, "none"⟩
    ⟨"cid", "", "App", ["http://x/cb"], [], [], false, "none"⟩
    ⟨"authorization_code", "K", "http://x/cb", "v", "", ""⟩
    ⟨[⟨"K", "cid", 7, "http://x/cb", "mcp:read", 1000,
        GeneratePKCEChallenge "v", "S256", false⟩], [], []⟩
    ⟨[⟨"K", "cid", 7, "http://x/cb", "mcp:read", 1000,
        GeneratePKCEChallenge "v", "S256", true⟩],
      [⟨"AT1", "cid", some 7, "mcp:read", oneHour, some 0, "http://mj", false⟩],
      [⟨"RT1", "cid", 7, "mcp:read", thirtyDays, false, 0⟩]⟩
    "AT1" "Bearer" 3600 "RT1" "mcp:read" (by decide)

end Mcpjungle
